import Mathlib

/-
Verification of the auth_kit authorization core.

Shallow embedding of:
  src/model.rs           (Permission, Role, User, Claims, Resource, AuthContext,
                          AuthStrategy, AuthStrategy::from_str, Identifiable)
  src/error.rs           (AuthError)
  src/auth/scope.rs      (FlexibleMatcher::matches, split, parse_scope_string,
                          authorize_with_matcher)
  src/auth/auth_z.rs     (Authorization::new, Authorization::authorize, gen_authorize)

Rust strings are modelled as Lean `String` (a structure holding `List Char`);
`u8` clearance levels are modelled as `Nat` (only order comparisons occur, so no
wrap-around arithmetic is ever performed on them). Rust `Result<T, AuthError>` is
modelled as `Except AuthError T`. The `&mut self` receiver of
`Authorization::authorize` is modelled by explicit state passing: the function
returns the decision together with the (unchanged) `Authorization` value.
-/

namespace AuthKit

/-- Permission enumeration from model.rs (Create, Read, Update, Delete). -/
inductive Permission
  | Create
  | Read
  | Update
  | Delete
  deriving DecidableEq

/-- Textual form produced by Rust `format!("\x7b:?\x7d", perm)` (the derived Debug
impl prints the bare variant name). -/
def Permission.debugFmt : Permission → String
  | .Create => "Create"
  | .Read => "Read"
  | .Update => "Update"
  | .Delete => "Delete"

/-- Textual form produced by the Display impl of Permission in model.rs
(lower-case names). -/
def Permission.displayFmt : Permission → String
  | .Create => "create"
  | .Read => "read"
  | .Update => "update"
  | .Delete => "delete"

/-- Role from model.rs: a name and a list of permissions. -/
structure Role where
  name : String
  permissions : List Permission
  deriving DecidableEq

/-- User from model.rs. `clearance_level` is a `u8` in the source, modelled as
`Nat`; it is only ever compared with `>=`. -/
structure User where
  email : String
  password_hash : String
  role : Role
  department : String
  clearance_level : Nat
  deriving DecidableEq

/-- Identifiable impl for User (model.rs): identity = email. -/
def User.identity (u : User) : String := u.email

/-- Claims from model.rs. -/
structure Claims where
  email : String
  service : String
  scopes : List String
  deriving DecidableEq

/-- Identifiable impl for Claims (model.rs): identity = email. -/
def Claims.identity (c : Claims) : String := c.email

/-- Resource from model.rs. `required_level` is a `u8` in the source. -/
structure Resource where
  department : String
  required_level : Nat
  deriving DecidableEq

/-- AuthContext from model.rs: optional user, claims and resource. -/
structure AuthContext where
  user : Option User
  claims : Option Claims
  resource : Option Resource
  deriving DecidableEq

/-- AuthStrategy from model.rs: the closed strategy enumeration. -/
inductive AuthStrategy
  | ABAC
  | RBAC
  | SBA
  deriving DecidableEq

/-- AuthError from error.rs. -/
inductive AuthError
  | UserNotFound
  | InvalidPassword
  | EmailAlreadyRegistered
  | InvalidToken
  | AccessDenied (user service permission : String)
  | PasswordHashingFailed (reason : String)
  | MissingUser
  | MissingClaims
  | MissingResource
  | InvalidStrategy (name : String)
  deriving DecidableEq

/-- Leftmost-first split of a character list at the first occurrence of the
pattern `pat`, as performed by Rust `str::splitn(2, pat)`: `some (before, after)`
when `pat` occurs as a contiguous substring, `none` otherwise. An empty pattern
matches at position 0, as in Rust. -/
def splitOnce (pat : List Char) : List Char → Option (List Char × List Char)
  | [] => if pat.isPrefixOf ([] : List Char) then some ([], []) else none
  | c :: rest =>
    if pat.isPrefixOf (c :: rest) then some ([], (c :: rest).drop pat.length)
    else (splitOnce pat rest).map fun p => (c :: p.1, p.2)

/-- Rust `str::contains(pat)`: substring containment. -/
def containsStr (s pat : String) : Bool := (splitOnce pat.data s.data).isSome

/-- The private `split` helper of scope.rs: `scope.splitn(2, delim)` with both
parts defaulted to "*" when absent. The first part of `splitn` is always
present (the whole string when the delimiter does not occur), so only the
second part can actually default to "*". -/
def split (scope delim : String) : String × String :=
  match splitOnce delim.data scope.data with
  | some p => (String.mk p.1, String.mk p.2)
  | none => (scope, "*")

/-- The delimiter loop inside FlexibleMatcher::matches (scope.rs): the first
delimiter occurring in either token decides the comparison (the Rust loop
returns from inside its body); if none occurs, fall back to exact equality or
a full-wildcard candidate. -/
def matchLoop : List String → String → String → Bool
  | [], u, r => u == r || u == "*"
  | d :: ds, u, r =>
    if containsStr u d || containsStr r d then
      ((split u d).1 == "*" || (split u d).1 == (split r d).1) &&
      ((split u d).2 == "*" || (split u d).2 == (split r d).2)
    else matchLoop ds u r

/-- FlexibleMatcher::matches from scope.rs, with the fixed delimiter preference
order `:`, `.`, `@`, `/`. -/
def FlexibleMatcher.matches (user_token required_token : String) : Bool :=
  matchLoop [":", ".", "@", "/"] user_token required_token

/-- The Unicode White_Space property, as used by Rust `char::is_whitespace`
(the code points with White_Space=yes). -/
def isUnicodeWhitespace (c : Char) : Bool :=
  c == '\t' || c == '\n' || c.toNat == 0xB || c.toNat == 0xC || c == '\r' ||
  c == ' ' || c.toNat == 0x85 || c.toNat == 0xA0 || c.toNat == 0x1680 ||
  c.toNat == 0x2000 || c.toNat == 0x2001 || c.toNat == 0x2002 ||
  c.toNat == 0x2003 || c.toNat == 0x2004 || c.toNat == 0x2005 ||
  c.toNat == 0x2006 || c.toNat == 0x2007 || c.toNat == 0x2008 ||
  c.toNat == 0x2009 || c.toNat == 0x200A || c.toNat == 0x2028 ||
  c.toNat == 0x2029 || c.toNat == 0x202F || c.toNat == 0x205F ||
  c.toNat == 0x3000

/-- Accumulator-based splitting on whitespace runs, dropping empty pieces, as
Rust `str::split_whitespace` does. `acc` holds the current in-progress token in
reverse order. -/
def splitWhitespaceAux : List Char → List Char → List String
  | [], acc => if acc.isEmpty then [] else [String.mk acc.reverse]
  | c :: rest, acc =>
    if isUnicodeWhitespace c then
      if acc.isEmpty then splitWhitespaceAux rest []
      else String.mk acc.reverse :: splitWhitespaceAux rest []
    else splitWhitespaceAux rest (c :: acc)

/-- parse_scope_string from scope.rs: split a scope string into whitespace
separated tokens. -/
def parse_scope_string (scope_str : String) : List String :=
  splitWhitespaceAux scope_str.data []

/-- authorize_with_matcher from scope.rs, instantiated (as everywhere in the
crate) with FlexibleMatcher: some token of the user scope string matches the
required token. -/
def authorize_with_matcher (user_scope_str required_token : String) : Bool :=
  (parse_scope_string user_scope_str).any fun token =>
    FlexibleMatcher.matches token required_token

/-- ASCII upper-casing of a string, character by character (agrees with
`String.toUpper`, stated structurally so that the kernel can evaluate it). -/
def asciiUpper (s : String) : String := String.mk (s.data.map Char.toUpper)

/-- ASCII lower-casing of a string, character by character (agrees with
`String.toLower`; this is also Rust `str::to_ascii_lowercase`). -/
def asciiLower (s : String) : String := String.mk (s.data.map Char.toLower)

/-- Case-insensitive ASCII string comparison, Rust `str::eq_ignore_ascii_case`:
equality after ASCII lower-casing both sides. -/
def eqIgnoreAsciiCase (a b : String) : Bool := asciiLower a == asciiLower b

/-- AuthStrategy::from_str from model.rs: upper-case the name and compare with
the three known strategy names; unknown names produce InvalidStrategy carrying
the original string. Rust `to_uppercase` is Unicode upper-casing, modelled here
by ASCII upper-casing; the two agree on all ASCII input, and the three
strategy names are ASCII. -/
def AuthStrategy.from_str (strategy : String) : Except AuthError AuthStrategy :=
  if asciiUpper strategy == "ABAC" then .ok .ABAC
  else if asciiUpper strategy == "RBAC" then .ok .RBAC
  else if asciiUpper strategy == "SBA" then .ok .SBA
  else .error (.InvalidStrategy strategy)

/-- The Authorization engine struct from auth_z.rs: holds the selected
strategy, immutable after construction. -/
structure Authorization where
  strategy : AuthStrategy
  deriving DecidableEq

/-- Authorization::new from auth_z.rs: parse the strategy name. -/
def Authorization.new (strategy : String) : Except AuthError Authorization :=
  match AuthStrategy.from_str strategy with
  | .ok s => .ok ⟨s⟩
  | .error e => .error e

/-- gen_authorize from auth_z.rs. The Rust function is generic over any
`Identifiable` subject with a permission-check closure; the trait method is
passed here as the explicit function `identity`. -/
def gen_authorize {U : Type} (identity : U → String) (user : U)
    (service permission : String)
    (check_permission : U → String → String → Bool) : Except AuthError Unit :=
  if check_permission user service permission then .ok ()
  else .error (.AccessDenied (identity user) service permission)

/-- Authorization::authorize from auth_z.rs. The `&mut self` receiver is
modelled by returning the resulting Authorization value alongside the decision
(the body never reassigns it, which the theorems below make explicit). -/
def Authorization.authorize (auth : Authorization) (context : AuthContext)
    (service permission : String) (delimiter : Option String) :
    Except AuthError Unit × Authorization :=
  match auth.strategy with
  | .ABAC =>
    match context.user with
    | none => (.error .MissingUser, auth)
    | some user =>
      match context.resource with
      | none => (.error .MissingResource, auth)
      | some resource =>
        (gen_authorize User.identity user service permission fun u _ _ =>
          u.department == resource.department &&
          decide (resource.required_level ≤ u.clearance_level), auth)
  | .RBAC =>
    match context.user with
    | none => (.error .MissingUser, auth)
    | some user =>
      (gen_authorize User.identity user service permission fun u _ p =>
        u.role.permissions.any fun perm =>
          eqIgnoreAsciiCase (Permission.debugFmt perm) p, auth)
  | .SBA =>
    match context.claims with
    | none => (.error .MissingClaims, auth)
    | some claims =>
      let resource := context.resource.getD ⟨"*", 0⟩
      let delim := delimiter.getD "."
      let candidates := [
        service ++ delim ++ resource.department ++ delim ++ permission,
        service ++ delim ++ permission,
        permission]
      let scopes := String.intercalate " " claims.scopes
      (gen_authorize Claims.identity claims service permission fun _ _ _ =>
        candidates.any fun candidate =>
          authorize_with_matcher scopes candidate, auth)

/-- Decision predicate of the ScopeBased arm written from the specification
text (used as the specification side of the refinement claim about that arm):
substitute a wildcard Resource when absent, default the delimiter to ".",
build the three candidate tokens most-specific first, and allow when the
claims' scopes joined by a single space match any candidate. -/
def sbaSpecDecision (claims : Claims) (resource : Option Resource)
    (service permission : String) (delimiter : Option String) : Bool :=
  let r := resource.getD ⟨"*", 0⟩
  let d := delimiter.getD "."
  let joined := String.intercalate " " claims.scopes
  authorize_with_matcher joined (service ++ d ++ r.department ++ d ++ permission) ||
  authorize_with_matcher joined (service ++ d ++ permission) ||
  authorize_with_matcher joined permission

/-- Splitting at a single character finds nothing exactly when the character
does not occur in the list. -/
theorem splitOnce_single_eq_none_iff (c : Char) (s : List Char) :
    splitOnce [c] s = none ↔ c ∉ s := by
  induction s with
  | nil => simp [splitOnce]
  | cons a s ih =>
    by_cases hca : c = a
    · subst hca
      simp [splitOnce, List.isPrefixOf]
    · simp [splitOnce, List.isPrefixOf, hca, ih, Option.map_eq_none]

/-- The first single-character split of `s ++ c :: t` lands exactly at the
marked occurrence when `c` does not occur in `s`. -/
theorem splitOnce_single_append (c : Char) (t : List Char) :
    ∀ s : List Char, c ∉ s → splitOnce [c] (s ++ c :: t) = some (s, t) := by
  intro s
  induction s with
  | nil => intro _; simp [splitOnce, List.isPrefixOf]
  | cons a s ih =>
    intro h
    have hca : ¬ c = a := fun hh => h (by rw [hh]; exact List.mem_cons_self a s)
    have hcs : c ∉ s := fun hm => h (List.mem_cons_of_mem a hm)
    simp [splitOnce, List.isPrefixOf, hca, ih hcs]

/-- The split helper returns the token itself plus the implicit "*" when the
delimiter does not occur in it. -/
theorem split_of_not_contains (s d : String) (h : containsStr s d = false) :
    split s d = (s, "*") := by
  unfold containsStr at h
  cases hs : splitOnce d.data s.data with
  | none => simp [split, hs]
  | some p => rw [hs] at h; simp at h

/-- An empty user scope string authorizes nothing: it parses to no tokens. -/
theorem authorize_with_matcher_empty (c : String) :
    authorize_with_matcher "" c = false := rfl

/-- ASCII lower-casing the Debug form of a Permission yields its Display
form. -/
theorem asciiLower_debugFmt (p : Permission) :
    asciiLower (Permission.debugFmt p) = Permission.displayFmt p := by
  cases p <;> rfl

/-- eq_ignore_ascii_case holds exactly when the ASCII lower-casings agree. -/
theorem eqIgnoreAsciiCase_eq_true_iff (a b : String) :
    eqIgnoreAsciiCase a b = true ↔ asciiLower a = asciiLower b := by
  simp [eqIgnoreAsciiCase]

/-- C1: evaluation of FlexibleMatcher::matches at the claim's inner-wildcard
example and at the inputs of the repository's own test
tests/scope_test.rs::test_three_part_scope. The matcher splits a token only at
the first occurrence of the delimiter and compares the remainder as a single
chunk, so an inner "*" segment is not treated as a wildcard: "a:*:c" does not
match "a:b:c", and the test's asserted matches fail, while the plain
equal-token and mismatched-arity examples behave as the claim states. -/
theorem c1_matcher_first_split_eval :
    FlexibleMatcher.matches "a:*:c" "a:b:c" = false ∧
    FlexibleMatcher.matches "a:b:c" "a:b:c" = true ∧
    FlexibleMatcher.matches "a:b" "a:b:c" = false ∧
    authorize_with_matcher "user_service:*:read" "user_service:user:read" = false ∧
    authorize_with_matcher "*:*:read" "user_service:user:read" = false ∧
    authorize_with_matcher "user_service:user:read" "user_service:user:read" = true := by
  decide

/-- C2: ScopeBased tiered fallback. For claims with scopes ["svc:perm"],
service "svc", permission "perm", delimiter ":" (the delimiter under which the
tier-1 candidate is "svc:*:perm", as the claim spells it) and no resource in
the context, authorize allows, for every claims email/service field and any
optional user; the tier-1 candidate "svc:*:perm" itself does not match while
the tier-2 candidate "svc:perm" does. -/
theorem c2_sba_tier2_fallback :
    (∀ (email svcf : String) (u : Option User),
      (Authorization.authorize ⟨.SBA⟩ ⟨u, some ⟨email, svcf, ["svc:perm"]⟩, none⟩
          "svc" "perm" (some ":")).1 = .ok ()) ∧
    authorize_with_matcher "svc:perm" "svc:*:perm" = false ∧
    authorize_with_matcher "svc:perm" "svc:perm" = true :=
  ⟨fun _ _ _ => rfl, by decide, by decide⟩

/-- Witness for C2 at a concrete email, claims service and absent user. -/
theorem c2_sba_tier2_fallback_witness :
    (Authorization.authorize ⟨.SBA⟩ ⟨none, some ⟨"u@x", "svc", ["svc:perm"]⟩, none⟩
        "svc" "perm" (some ":")).1 = .ok () :=
  c2_sba_tier2_fallback.1 "u@x" "svc" none

/-- C6: missing-field guards. RoleBased without a user yields MissingUser;
ScopeBased without claims yields MissingClaims; AttributeBased without a user
yields MissingUser whatever the resource field holds (the user check comes
first), and with a user but no resource yields MissingResource. -/
theorem c6_missing_field_guards :
    (∀ (cl : Option Claims) (r : Option Resource) (s p : String) (d : Option String),
      (Authorization.authorize ⟨.RBAC⟩ ⟨none, cl, r⟩ s p d).1 = .error .MissingUser) ∧
    (∀ (u : Option User) (r : Option Resource) (s p : String) (d : Option String),
      (Authorization.authorize ⟨.SBA⟩ ⟨u, none, r⟩ s p d).1 = .error .MissingClaims) ∧
    (∀ (cl : Option Claims) (r : Option Resource) (s p : String) (d : Option String),
      (Authorization.authorize ⟨.ABAC⟩ ⟨none, cl, r⟩ s p d).1 = .error .MissingUser) ∧
    (∀ (user : User) (cl : Option Claims) (s p : String) (d : Option String),
      (Authorization.authorize ⟨.ABAC⟩ ⟨some user, cl, none⟩ s p d).1 =
        .error .MissingResource) :=
  ⟨fun _ _ _ _ _ => rfl, fun _ _ _ _ _ => rfl, fun _ _ _ _ _ => rfl,
   fun _ _ _ _ _ => rfl⟩

/-- Witness for C6 at concrete arguments (AttributeBased, user present,
resource absent). -/
theorem c6_missing_field_guards_witness :
    (Authorization.authorize ⟨.ABAC⟩
        ⟨some ⟨"u@x", "h", ⟨"admin", []⟩, "eng", 3⟩, none, none⟩
        "docs" "read" none).1 = .error .MissingResource :=
  c6_missing_field_guards.2.2.2 ⟨"u@x", "h", ⟨"admin", []⟩, "eng", 3⟩ none "docs" "read" none

/-- C7: strategy-name parsing is case-insensitive over the closed enumeration:
"rbac", "RBAC" and "Rbac" all construct the RBAC engine, "XYZ" fails with
InvalidStrategy carrying exactly "XYZ", and any name whose ASCII upper-casing
is none of ABAC/RBAC/SBA fails with InvalidStrategy carrying the name as
given. -/
theorem c7_strategy_parsing :
    Authorization.new "rbac" = .ok ⟨.RBAC⟩ ∧
    Authorization.new "RBAC" = .ok ⟨.RBAC⟩ ∧
    Authorization.new "Rbac" = .ok ⟨.RBAC⟩ ∧
    Authorization.new "XYZ" = .error (.InvalidStrategy "XYZ") ∧
    (∀ s : String, asciiUpper s ≠ "ABAC" → asciiUpper s ≠ "RBAC" → asciiUpper s ≠ "SBA" →
      Authorization.new s = .error (.InvalidStrategy s)) := by
  refine ⟨rfl, rfl, rfl, rfl, ?_⟩
  intro s h1 h2 h3
  simp [Authorization.new, AuthStrategy.from_str, h1, h2, h3]

/-- Witness for C7 at the concrete unknown name "jwt". -/
theorem c7_strategy_parsing_witness :
    Authorization.new "jwt" = .error (.InvalidStrategy "jwt") :=
  c7_strategy_parsing.2.2.2.2 "jwt" (by decide) (by decide) (by decide)

/-- C8: authorize is stateless. The returned engine state equals the input
state (the stored strategy is never mutated), and a second call with identical
arguments on the returned state yields the identical decision. -/
theorem c8_authorize_stateless (auth : Authorization) (context : AuthContext)
    (service permission : String) (delimiter : Option String) :
    (Authorization.authorize auth context service permission delimiter).2 = auth ∧
    (Authorization.authorize
        (Authorization.authorize auth context service permission delimiter).2
        context service permission delimiter).1 =
      (Authorization.authorize auth context service permission delimiter).1 := by
  have h2 : (Authorization.authorize auth context service permission delimiter).2 = auth := by
    obtain ⟨st⟩ := auth
    obtain ⟨u, cl, r⟩ := context
    cases st <;> cases u <;> cases cl <;> cases r <;> rfl
  exact ⟨h2, by rw [h2]⟩

/-- Witness for C8 at concrete arguments. -/
theorem c8_authorize_stateless_witness :
    (Authorization.authorize ⟨.RBAC⟩ ⟨none, none, none⟩ "s" "p" none).2 = ⟨.RBAC⟩ ∧
    (Authorization.authorize
        (Authorization.authorize ⟨.RBAC⟩ ⟨none, none, none⟩ "s" "p" none).2
        ⟨none, none, none⟩ "s" "p" none).1 =
      (Authorization.authorize ⟨.RBAC⟩ ⟨none, none, none⟩ "s" "p" none).1 :=
  c8_authorize_stateless ⟨.RBAC⟩ ⟨none, none, none⟩ "s" "p" none

/-- C9: authorize always produces a Result value (allow or a named error; the
embedding is a total function), and under ScopeBased a claims value with an
empty scopes list denies with AccessDenied for every service, permission,
delimiter and optional resource. -/
theorem c9_total_and_empty_scopes_deny :
    (∀ (auth : Authorization) (context : AuthContext) (service permission : String)
        (delimiter : Option String),
      (Authorization.authorize auth context service permission delimiter).1 = .ok () ∨
      ∃ e : AuthError,
        (Authorization.authorize auth context service permission delimiter).1 = .error e) ∧
    (∀ (email svcf : String) (u : Option User) (r : Option Resource)
        (service permission : String) (delimiter : Option String),
      (Authorization.authorize ⟨.SBA⟩ ⟨u, some ⟨email, svcf, []⟩, r⟩
          service permission delimiter).1 =
        .error (.AccessDenied email service permission)) := by
  constructor
  · intro auth context service permission delimiter
    cases hE : (Authorization.authorize auth context service permission delimiter).1 with
    | ok v => exact Or.inl rfl
    | error e => exact Or.inr ⟨e, rfl⟩
  · intro email svcf u r service permission delimiter
    rfl

/-- Witness for C9 at concrete arguments. -/
theorem c9_total_and_empty_scopes_deny_witness :
    (Authorization.authorize ⟨.SBA⟩ ⟨none, some ⟨"u@x", "svc", []⟩, none⟩
        "svc" "read" none).1 = .error (.AccessDenied "u@x" "svc" "read") :=
  c9_total_and_empty_scopes_deny.2 "u@x" "svc" none none "svc" "read" none

/-- C3: for every context with claims present, the ScopeBased arm substitutes
the wildcard Resource when the resource is absent, defaults the delimiter to
".", builds exactly the three candidate tokens, and allows precisely when the
claims' scopes joined by a single space match one of them — i.e. it equals the
decision predicate written from the spec (sbaSpecDecision), denying with
AccessDenied built from the claims identity. -/
theorem c3_sba_refines_spec (ctx : AuthContext) (claims : Claims)
    (h : ctx.claims = some claims) (service permission : String)
    (delimiter : Option String) :
    (Authorization.authorize ⟨.SBA⟩ ctx service permission delimiter).1 =
      if sbaSpecDecision claims ctx.resource service permission delimiter
      then .ok ()
      else .error (.AccessDenied claims.email service permission) := by
  obtain ⟨u, cl, r⟩ := ctx
  simp only [AuthContext.claims] at h
  subst h
  simp [Authorization.authorize, gen_authorize, sbaSpecDecision, Claims.identity,
    Bool.or_assoc, Bool.or_false]

/-- Witness for C3 at a concrete context with claims present. -/
theorem c3_sba_refines_spec_witness :
    (Authorization.authorize ⟨.SBA⟩ ⟨none, some ⟨"e", "s", ["a:b"]⟩, none⟩
        "a" "b" (some ":")).1 =
      if sbaSpecDecision ⟨"e", "s", ["a:b"]⟩ none "a" "b" (some ":")
      then .ok () else .error (.AccessDenied "e" "a" "b") :=
  c3_sba_refines_spec ⟨none, some ⟨"e", "s", ["a:b"]⟩, none⟩ ⟨"e", "s", ["a:b"]⟩ rfl
    "a" "b" (some ":")

/-- C4: under RoleBased, authorize allows exactly when the subject's role
contains a Permission whose ASCII-case-insensitive textual form equals the
requested permission (equivalently: whose lower-case Display name equals the
lower-cased request), for every service; otherwise it returns AccessDenied
carrying the subject's email, the service and the permission. -/
theorem c4_rbac_decision (user : User) (cl : Option Claims) (r : Option Resource)
    (service permission : String) (d : Option String) :
    ((Authorization.authorize ⟨.RBAC⟩ ⟨some user, cl, r⟩ service permission d).1 = .ok ()
      ↔ ∃ perm ∈ user.role.permissions,
          Permission.displayFmt perm = asciiLower permission) ∧
    ((Authorization.authorize ⟨.RBAC⟩ ⟨some user, cl, r⟩ service permission d).1 = .ok ()
      ∨ (Authorization.authorize ⟨.RBAC⟩ ⟨some user, cl, r⟩ service permission d).1 =
          .error (.AccessDenied user.email service permission)) := by
  have hred : (Authorization.authorize ⟨.RBAC⟩ ⟨some user, cl, r⟩ service permission d).1 =
      if user.role.permissions.any
          (fun perm => eqIgnoreAsciiCase (Permission.debugFmt perm) permission)
      then .ok () else .error (.AccessDenied user.email service permission) := rfl
  have hiff : (user.role.permissions.any
        (fun perm => eqIgnoreAsciiCase (Permission.debugFmt perm) permission)) = true
      ↔ ∃ perm ∈ user.role.permissions,
          Permission.displayFmt perm = asciiLower permission := by
    simp [List.any_eq_true, eqIgnoreAsciiCase, asciiLower_debugFmt]
  constructor
  · rw [hred, ← hiff]
    cases hb : user.role.permissions.any
        (fun perm => eqIgnoreAsciiCase (Permission.debugFmt perm) permission) <;>
      simp [hb]
  · rw [hred]
    cases hb : user.role.permissions.any
        (fun perm => eqIgnoreAsciiCase (Permission.debugFmt perm) permission) <;>
      simp [hb]

/-- Witness for C4 at a concrete user holding the Read permission and the
mixed-case request "READ". -/
theorem c4_rbac_decision_witness :
    (((Authorization.authorize ⟨.RBAC⟩
          ⟨some ⟨"u@x", "h", ⟨"admin", [.Read]⟩, "eng", 3⟩, none, none⟩
          "svc" "READ" none).1 = .ok ()
        ↔ ∃ perm ∈ [Permission.Read],
            Permission.displayFmt perm = asciiLower "READ") ∧
      ((Authorization.authorize ⟨.RBAC⟩
          ⟨some ⟨"u@x", "h", ⟨"admin", [.Read]⟩, "eng", 3⟩, none, none⟩
          "svc" "READ" none).1 = .ok ()
        ∨ (Authorization.authorize ⟨.RBAC⟩
            ⟨some ⟨"u@x", "h", ⟨"admin", [.Read]⟩, "eng", 3⟩, none, none⟩
            "svc" "READ" none).1 = .error (.AccessDenied "u@x" "svc" "READ"))) :=
  c4_rbac_decision ⟨"u@x", "h", ⟨"admin", [.Read]⟩, "eng", 3⟩ none none "svc" "READ" none

/-- C5: under AttributeBased with user and resource present, authorize allows
exactly when the subject's department equals the resource's department and the
subject's clearance meets or exceeds the required level; the allow outcome is
independent of service, permission and delimiter, and the boundary case of
clearance equal to the required level passes. -/
theorem c5_abac_decision (user : User) (resource : Resource) (cl : Option Claims)
    (service permission : String) (d : Option String) :
    ((Authorization.authorize ⟨.ABAC⟩ ⟨some user, cl, some resource⟩
          service permission d).1 = .ok ()
      ↔ (user.department = resource.department ∧
          resource.required_level ≤ user.clearance_level)) ∧
    (∀ (s2 p2 : String) (d2 : Option String),
      ((Authorization.authorize ⟨.ABAC⟩ ⟨some user, cl, some resource⟩
            service permission d).1 = .ok ()
        ↔ (Authorization.authorize ⟨.ABAC⟩ ⟨some user, cl, some resource⟩
            s2 p2 d2).1 = .ok ())) ∧
    (user.clearance_level = resource.required_level →
      user.department = resource.department →
      (Authorization.authorize ⟨.ABAC⟩ ⟨some user, cl, some resource⟩
          service permission d).1 = .ok ()) := by
  have hred : ∀ (s p : String) (dd : Option String),
      (Authorization.authorize ⟨.ABAC⟩ ⟨some user, cl, some resource⟩ s p dd).1 =
        if user.department == resource.department &&
            decide (resource.required_level ≤ user.clearance_level)
        then .ok () else .error (.AccessDenied user.email s p) := fun _ _ _ => rfl
  have hcond : (user.department == resource.department &&
        decide (resource.required_level ≤ user.clearance_level)) = true
      ↔ (user.department = resource.department ∧
          resource.required_level ≤ user.clearance_level) := by
    simp
  refine ⟨?_, ?_, ?_⟩
  · rw [hred, ← hcond]
    cases hb : user.department == resource.department &&
        decide (resource.required_level ≤ user.clearance_level) <;> simp [hb]
  · intro s2 p2 d2
    rw [hred service permission d, hred s2 p2 d2]
    cases hb : user.department == resource.department &&
        decide (resource.required_level ≤ user.clearance_level) <;> simp [hb]
  · intro h1 h2
    have hle : resource.required_level ≤ user.clearance_level := by omega
    rw [hred, if_pos (hcond.mpr ⟨h2, hle⟩)]

/-- Witness for C5 at a concrete user/resource pair sitting exactly on the
clearance boundary. -/
theorem c5_abac_decision_witness :
    (((Authorization.authorize ⟨.ABAC⟩
          ⟨some ⟨"u@x", "h", ⟨"staff", []⟩, "eng", 3⟩, none, some ⟨"eng", 3⟩⟩
          "docs" "read" none).1 = .ok ()
        ↔ (("eng" : String) = "eng" ∧ (3 : Nat) ≤ 3)) ∧
      (∀ (s2 p2 : String) (d2 : Option String),
        ((Authorization.authorize ⟨.ABAC⟩
              ⟨some ⟨"u@x", "h", ⟨"staff", []⟩, "eng", 3⟩, none, some ⟨"eng", 3⟩⟩
              "docs" "read" none).1 = .ok ()
          ↔ (Authorization.authorize ⟨.ABAC⟩
              ⟨some ⟨"u@x", "h", ⟨"staff", []⟩, "eng", 3⟩, none, some ⟨"eng", 3⟩⟩
              s2 p2 d2).1 = .ok ())) ∧
      ((3 : Nat) = 3 → ("eng" : String) = "eng" →
        (Authorization.authorize ⟨.ABAC⟩
            ⟨some ⟨"u@x", "h", ⟨"staff", []⟩, "eng", 3⟩, none, some ⟨"eng", 3⟩⟩
            "docs" "read" none).1 = .ok ())) :=
  c5_abac_decision ⟨"u@x", "h", ⟨"staff", []⟩, "eng", 3⟩ ⟨"eng", 3⟩ none "docs" "read" none

/-- C10: a token lacking the selected delimiter is split into its full text
plus an implicit second part "*"; consequently a delimiter-free candidate
token s matches the required token s ++ ":" ++ t for any non-empty suffix t,
and in particular matches("read", "read:users") holds. -/
theorem c10_implicit_wildcard_tail :
    (∀ s d : String, containsStr s d = false → split s d = (s, "*")) ∧
    (∀ s t : String, containsStr s ":" = false → t ≠ "" →
      FlexibleMatcher.matches s (s ++ ":" ++ t) = true) ∧
    FlexibleMatcher.matches "read" "read:users" = true := by
  refine ⟨split_of_not_contains, ?_, by decide⟩
  intro s t hs _
  have hnone : splitOnce [':'] s.data = none := by
    cases hq : splitOnce [':'] s.data with
    | none => rfl
    | some p =>
      unfold containsStr at hs
      rw [show ((":" : String).data) = [':'] from rfl, hq] at hs
      simp at hs
  have hmem : ':' ∉ s.data := (splitOnce_single_eq_none_iff ':' s.data).mp hnone
  have hdata : (s ++ ":" ++ t).data = s.data ++ ':' :: t.data := by
    simp [String.data_append]
  have hsome : splitOnce [':'] ((s ++ ":" ++ t).data) = some (s.data, t.data) := by
    rw [hdata]
    exact splitOnce_single_append ':' t.data s.data hmem
  have hcontains : containsStr (s ++ ":" ++ t) ":" = true := by
    unfold containsStr
    rw [show ((":" : String).data) = [':'] from rfl, hsome]
    rfl
  have hsplit_user : split s ":" = (s, "*") := split_of_not_contains s ":" hs
  have hsplit_req : split (s ++ ":" ++ t) ":" = (s, String.mk t.data) := by
    unfold split
    rw [show ((":" : String).data) = [':'] from rfl, hsome]
  show matchLoop [":", ".", "@", "/"] s (s ++ ":" ++ t) = true
  simp [matchLoop, hcontains, hsplit_user, hsplit_req]

/-- Witness for C10: the split default and the implicit-wildcard match at
concrete tokens. -/
theorem c10_implicit_wildcard_tail_witness :
    split "read" ":" = ("read", "*") ∧
    FlexibleMatcher.matches "ab" ("ab" ++ ":" ++ "cd") = true :=
  ⟨c10_implicit_wildcard_tail.1 "read" ":" (by decide),
   c10_implicit_wildcard_tail.2.1 "ab" "cd" (by decide) (by decide)⟩

end AuthKit
